import Mathlib

/-!
Shallow embedding of the quote0 Go SDK (a client for the Quote/0 e-ink
display HTTP API) together with proofs about its dispatch pipeline:
device-id resolution, request validation, image payload normalization,
JSON serialization of the request structs, error normalization of
non-2xx responses, success-response decoding, error classification
predicates, and the fixed-interval rate limiter.

Go strings are modelled as Lean strings, byte slices as lists of byte
values, machine integers as unbounded integers (none of the embedded
arithmetic comes near overflow), and time instants as integers.
External effects (the JSON parser of the standard library, the file
system, the HTTP transport) are abstracted as function parameters, so
that properties of the form "the call fails before any network
activity" become statements that hold for every choice of the
abstracted effect.
-/

namespace Quote0

/-- Models Go unicode.IsSpace on the Latin-1 range, the character class
used by strings.TrimSpace. (Go additionally treats a few higher Unicode
code points as space; none of the verified properties depend on them.) -/
def goIsSpace (c : Char) : Bool :=
  c = ' ' || c = '\t' || c = '\n' || c = '\r' ||
  c = Char.ofNat 11 || c = Char.ofNat 12 || c = Char.ofNat 133 || c = Char.ofNat 160

/-- Drops trailing characters satisfying p; helper for trimming. -/
def dropTrail (p : Char → Bool) (l : List Char) : List Char :=
  (l.reverse.dropWhile p).reverse

/-- Models Go strings.TrimSpace: removes leading and trailing white space. -/
def goTrim (s : String) : String :=
  String.mk (dropTrail goIsSpace (s.data.dropWhile goIsSpace))

/-- Models Go strings.ToLower (ASCII range, which covers HTTP header values). -/
def goToLower (s : String) : String :=
  String.mk (s.data.map Char.toLower)

/-- Substring search on character lists; helper for goContains. -/
def hasSubstr (needle : List Char) : List Char → Bool
  | [] => needle.isEmpty
  | c :: rest => needle.isPrefixOf (c :: rest) || hasSubstr needle rest

/-- Models Go strings.Contains. -/
def goContains (s sub : String) : Bool :=
  hasSubstr sub.data s.data

theorem dropWhile_dropWhile (p : Char → Bool) (l : List Char) :
    (l.dropWhile p).dropWhile p = l.dropWhile p := by
  induction l with
  | nil => rfl
  | cons a t ih =>
    cases h : p a with
    | true => simpa [List.dropWhile_cons, h] using ih
    | false => simp [List.dropWhile_cons, h]

theorem dropWhile_eq_self_of_prefix (p : Char → Bool) {l k : List Char}
    (hl : l.dropWhile p = l) (hk : k <+: l) : k.dropWhile p = k := by
  cases k with
  | nil => rfl
  | cons b u =>
    cases l with
    | nil =>
      have := hk.length_le
      simp at this
    | cons a t =>
      obtain ⟨r, hr⟩ := hk
      have hb : b = a := by
        have := congrArg (fun x => x.head?) hr
        simpa using this
      subst hb
      have hpb : p b = false := by
        cases h : p b with
        | false => rfl
        | true =>
          rw [List.dropWhile_cons_of_pos h] at hl
          have hlen : (t.dropWhile p).length ≤ t.length :=
            (List.dropWhile_sublist p).length_le
          rw [hl] at hlen
          simp at hlen
      simp [List.dropWhile_cons, hpb]

theorem dropWhile_eq_self_of_forall {p : Char → Bool} {l : List Char}
    (h : ∀ c ∈ l, p c = false) : l.dropWhile p = l := by
  cases l with
  | nil => rfl
  | cons a t =>
    have ha := h a (List.mem_cons_self a t)
    simp [List.dropWhile_cons, ha]

theorem dropTrail_prefix (p : Char → Bool) (l : List Char) :
    dropTrail p l <+: l := by
  have h1 : l.reverse.dropWhile p <:+ l.reverse := List.dropWhile_suffix p
  have h2 := h1.reverse
  rwa [List.reverse_reverse] at h2

theorem goTrim_idem (s : String) : goTrim (goTrim s) = goTrim s := by
  cases s with
  | mk x =>
    show String.mk (dropTrail goIsSpace
        ((dropTrail goIsSpace (x.dropWhile goIsSpace)).dropWhile goIsSpace)) =
      String.mk (dropTrail goIsSpace (x.dropWhile goIsSpace))
    set p := goIsSpace
    set y := x.dropWhile p with hy
    have hyy : y.dropWhile p = y := dropWhile_dropWhile p x
    have hpre : dropTrail p y <+: y := dropTrail_prefix p y
    have h3 : (dropTrail p y).dropWhile p = dropTrail p y :=
      dropWhile_eq_self_of_prefix p hyy hpre
    rw [h3]
    show String.mk ((((dropTrail p y).reverse).dropWhile p).reverse) = _
    have h4 : (dropTrail p y).reverse = y.reverse.dropWhile p := by
      simp [dropTrail]
    rw [h4, dropWhile_dropWhile]
    rfl

theorem goTrim_eq_self {s : String} (h : ∀ c ∈ s.data, goIsSpace c = false) :
    goTrim s = s := by
  cases s with
  | mk x =>
    have h1 : x.dropWhile goIsSpace = x := dropWhile_eq_self_of_forall h
    have h2 : x.reverse.dropWhile goIsSpace = x.reverse :=
      dropWhile_eq_self_of_forall (fun c hc => h c (List.mem_reverse.mp hc))
    show String.mk (dropTrail goIsSpace (x.dropWhile goIsSpace)) = String.mk x
    rw [h1]
    show String.mk ((x.reverse.dropWhile goIsSpace).reverse) = String.mk x
    rw [h2, List.reverse_reverse]

/-- Generic JSON values, the target of the abstracted standard-library
parser (Go json.Unmarshal into a generic key-value mapping). Numbers are
modelled as integers: the Go code coerces numeric codes through int
before rendering, so integral values are the modelled domain. -/
inductive Json where
  | null
  | bool (b : Bool)
  | num (n : Int)
  | str (s : String)
  | arr (elems : List Json)
  | obj (fields : List (String × Json))

/-- First-match lookup in a parsed JSON object, modelling Go map indexing
(json.Unmarshal produces maps with unique keys). -/
def lookupField : List (String × Json) → String → Option Json
  | [], _ => none
  | (k, v) :: rest, key => if k = key then some v else lookupField rest key

theorem lookupField_append (a b : List (String × Json)) (k : String) :
    lookupField (a ++ b) k =
      match lookupField a k with
      | some v => some v
      | none => lookupField b k := by
  induction a with
  | nil => rfl
  | cons hd t ih =>
    obtain ⟨k2, v2⟩ := hd
    by_cases h : k2 = k
    · simp [lookupField, h]
    · simp [lookupField, h, ih]

/-- Models the APIError struct of errors.go: a normalized non-2xx response. -/
structure APIError where
  StatusCode : Nat
  Code : String
  Message : String
  RawBody : String
deriving DecidableEq

/-- Models Go error interface values as the SDK produces them: a typed
APIError, one of the errors.go sentinel errors, a wrapped underlying
error, or a context cancellation error. -/
inductive GoError where
  | apiError (e : APIError)
  | sentinel (msg : String)
  | wrapped (msg : String)
  | ctxCanceled
deriving DecidableEq

/-- Models the ErrDeviceIDMissing sentinel of errors.go. -/
def ErrDeviceIDMissing : GoError := GoError.sentinel "quote0: deviceId is required"

/-- Models the ErrImagePayloadMissing sentinel of errors.go. -/
def ErrImagePayloadMissing : GoError := GoError.sentinel "quote0: image payload is required"

/-- Models the ErrTitleMissing sentinel of errors.go. -/
def ErrTitleMissing : GoError := GoError.sentinel "quote0: title is required"

/-- Models the ErrMessageMissing sentinel of errors.go. -/
def ErrMessageMissing : GoError := GoError.sentinel "quote0: message is required"

/-- Models IsRateLimitError of errors.go: the Go type assertion
err.(*APIError) succeeds only on the apiError constructor. -/
def IsRateLimitError : GoError → Bool
  | GoError.apiError e => e.StatusCode == 429
  | _ => false

/-- Models IsAuthError of errors.go. -/
def IsAuthError : GoError → Bool
  | GoError.apiError e => e.StatusCode == 401 || e.StatusCode == 403
  | _ => false

/-- Models Go strings.HasPrefix. -/
def goHasPrefix (s pre : String) : Bool :=
  pre.data.isPrefixOf s.data

/-- Models Go strings.HasSuffix. -/
def goHasSuffix (s suf : String) : Bool :=
  suf.data.isSuffixOf s.data

/-- Models isJSONObject of errors.go. -/
def isJSONObject (s : String) : Bool :=
  s.length > 0 && goHasPrefix s "\x7b" && goHasSuffix s "\x7d"

/-- Models formatCode of errors.go: converts a code field (string or
number) to a string; anything else becomes the empty string. -/
def formatCode : Json → String
  | Json.str t => goTrim t
  | Json.num n => toString n
  | _ => ""

/-- Models the else branch of extractErrorFields of errors.go: an "error"
field that is a non-empty string, else the fallback text. -/
def msgFromErrField (obj : List (String × Json)) (fallback : String) : String :=
  match lookupField obj "error" with
  | some (Json.str v) => if v = "" then fallback else v
  | _ => fallback

/-- Models the message extraction of extractErrorFields of errors.go:
a "message" field that is a non-empty string, else the "error" field,
else the fallback text. -/
def msgFromObj (obj : List (String × Json)) (fallback : String) : String :=
  match lookupField obj "message" with
  | some (Json.str v) => if v = "" then msgFromErrField obj fallback else v
  | _ => msgFromErrField obj fallback

/-- Models extractErrorFields of errors.go. -/
def extractErrorFields (ae : APIError) (obj : List (String × Json))
    (fallback : String) : APIError :=
  let ae2 := { ae with Message := msgFromObj obj fallback }
  match lookupField obj "code" with
  | some v => { ae2 with Code := formatCode v }
  | none => ae2

/-- Models buildAPIError of errors.go. The standard-library JSON parser
(tryParseJSON, wrapping json.Unmarshal) is abstracted as the parameter
tryParseJSON: it returns the parsed key-value mapping or none on failure. -/
def buildAPIError (tryParseJSON : String → Option (List (String × Json)))
    (status : Nat) (body : String) : APIError :=
  let trimmed := goTrim body
  let ae : APIError := { StatusCode := status, Code := "", Message := trimmed, RawBody := body }
  if isJSONObject trimmed then
    match tryParseJSON body with
    | some obj => extractErrorFields ae obj trimmed
    | none => ae
  else ae

/-- Models the APIResponse struct of the client file: the normalized
success envelope. Result is the opaque raw JSON payload. -/
structure APIResponse where
  Code : Int
  Message : String
  Result : Option String
  StatusCode : Nat
  RawBody : String
deriving DecidableEq

/-- Decoded form of the success envelope, produced by the abstracted
json.Unmarshal when it succeeds on a 2xx body. -/
structure Envelope where
  code : Int
  message : String
  result : Option String
deriving DecidableEq

/-- Models the 2xx tail of doJSON in the client file (after the limiter,
request and read steps): builds the normalized success value from the
HTTP status, the Content-Type header and the raw body. The
standard-library JSON decoding of the envelope is abstracted as the
parameter decode. -/
def doJSON2xx (decode : String → Option Envelope) (status : Nat)
    (contentType : String) (raw : String) : APIResponse :=
  let out : APIResponse :=
    { Code := 0, Message := "", Result := none, StatusCode := status, RawBody := raw }
  if raw = "" then out
  else
    let ct := goToLower contentType
    if goContains ct "application/json" then
      match decode raw with
      | some env => { out with Code := env.code, Message := env.message, Result := env.result }
      | none => { out with Message := goTrim raw }
    else { out with Message := goTrim raw }

/-- Models resolveDeviceID of the client file. The first argument is the
client's defaultDevice field (the only client field this method reads). -/
def resolveDeviceID (defaultDevice : String) (explicit : String) :
    Except GoError String :=
  let e := goTrim explicit
  if e ≠ "" then Except.ok e
  else
    let id := goTrim defaultDevice
    if id = "" then Except.error ErrDeviceIDMissing
    else Except.ok id

/-- Models the TextRequest struct of the text file. -/
structure TextRequest where
  RefreshNow : Option Bool
  DeviceID : String
  Title : String
  Message : String
  Signature : String
  Icon : String
  Link : String
deriving DecidableEq

/-- Models TextRequest.validate. -/
def TextRequest.validate (r : TextRequest) : Option GoError :=
  if goTrim r.DeviceID = "" then some ErrDeviceIDMissing else none

/-- Models BorderColor of image.go (a Go int). -/
def BorderWhite : Int := 0

/-- Models BorderBlack of image.go. -/
def BorderBlack : Int := 1

/-- Models the ImageRequest struct of image.go. ImageBytes is a byte
slice (list of byte values); the dither enums are their string values. -/
structure ImageRequest where
  RefreshNow : Option Bool
  DeviceID : String
  Image : String
  ImageBytes : List Nat
  ImagePath : String
  Link : String
  Border : Int
  DitherType : String
  DitherKernel : String
deriving DecidableEq

/-- Models ImageRequest.validate of image.go. -/
def ImageRequest.validate (r : ImageRequest) : Option GoError :=
  if goTrim r.DeviceID = "" then some ErrDeviceIDMissing
  else if goTrim r.Image = "" then some ErrImagePayloadMissing
  else none

/-- Base64 standard alphabet used by encodeBase64. -/
def b64alphabet : List Char :=
  "ABCDEFGHIJKLMNOPQRSTUVWXYZabcdefghijklmnopqrstuvwxyz0123456789+/".data

/-- Character of the standard base64 alphabet at a 6-bit index. -/
def b64char (n : Nat) : Char := b64alphabet.getD n 'A'

/-- Models encodeBase64 of the helper file (Go base64.StdEncoding with
padding), three input bytes to four output characters. -/
def encodeBase64 : List Nat → String
  | [] => ""
  | [a] =>
    String.mk [b64char (a / 4), b64char (a % 4 * 16), '=', '=']
  | [a, b] =>
    String.mk [b64char (a / 4), b64char (a % 4 * 16 + b / 16), b64char (b % 16 * 4), '=']
  | a :: b :: c :: rest =>
    String.mk [b64char (a / 4), b64char (a % 4 * 16 + b / 16),
      b64char (b % 16 * 4 + c / 64), b64char (c % 64)] ++ encodeBase64 rest

/-- Models readFile of the helper file: wraps a file-system failure in
the quote0 read-image-file error. The file system itself is abstracted
as the parameter fs. -/
def readFile (fs : String → Except String (List Nat)) (path : String) :
    Except GoError (List Nat) :=
  match fs path with
  | Except.ok data => Except.ok data
  | Except.error cause => Except.error (GoError.wrapped ("quote0: read image file: " ++ cause))

/-- Models Client.SendText. The whole of doJSON (limiter wait, request
marshalling, network call, response normalization) is abstracted as the
parameter doJSONCall, so a result that holds for every doJSONCall holds
before any limiter or network activity. -/
def SendText (defaultDevice : String)
    (doJSONCall : TextRequest → Except GoError APIResponse)
    (payload : TextRequest) : Except GoError APIResponse :=
  match resolveDeviceID defaultDevice payload.DeviceID with
  | Except.error e => Except.error e
  | Except.ok did =>
    let p := { payload with DeviceID := did }
    match p.validate with
    | some e => Except.error e
    | none => doJSONCall p

/-- Models the tail of Client.SendImage after device-id resolution:
image source normalization (Image wins, else ImageBytes, else ImagePath),
validation, and the doJSON call (abstracted as doJSONCall). -/
def SendImageResolved (fs : String → Except String (List Nat))
    (doJSONCall : ImageRequest → Except GoError APIResponse)
    (payload : ImageRequest) : Except GoError APIResponse :=
  let step : Except GoError ImageRequest :=
    if goTrim payload.Image = "" then
      if payload.ImageBytes.length > 0 then
        Except.ok { payload with Image := encodeBase64 payload.ImageBytes }
      else
        let p := goTrim payload.ImagePath
        if p = "" then Except.ok payload
        else
          match readFile fs p with
          | Except.ok data => Except.ok { payload with Image := encodeBase64 data }
          | Except.error e => Except.error e
    else Except.ok payload
  match step with
  | Except.error e => Except.error e
  | Except.ok p2 =>
    match p2.validate with
    | some e => Except.error e
    | none => doJSONCall p2

/-- Models Client.SendImage of image.go: device-id resolution followed by
the resolved tail. -/
def SendImage (defaultDevice : String)
    (fs : String → Except String (List Nat))
    (doJSONCall : ImageRequest → Except GoError APIResponse)
    (payload : ImageRequest) : Except GoError APIResponse :=
  match resolveDeviceID defaultDevice payload.DeviceID with
  | Except.error e => Except.error e
  | Except.ok did => SendImageResolved fs doJSONCall { payload with DeviceID := did }

/-- Models Go encoding/json marshalling of TextRequest per its struct
tags: fields tagged omitempty vanish when they hold their zero value
(nil pointer, empty string); deviceId has no omitempty and is always
emitted. -/
def marshalTextRequest (r : TextRequest) : List (String × Json) :=
  (match r.RefreshNow with
    | some b => [("refreshNow", Json.bool b)]
    | none => []) ++
  [("deviceId", Json.str r.DeviceID)] ++
  (if r.Title = "" then [] else [("title", Json.str r.Title)]) ++
  (if r.Message = "" then [] else [("message", Json.str r.Message)]) ++
  (if r.Signature = "" then [] else [("signature", Json.str r.Signature)]) ++
  (if r.Icon = "" then [] else [("icon", Json.str r.Icon)]) ++
  (if r.Link = "" then [] else [("link", Json.str r.Link)])

/-- Models Go encoding/json marshalling of ImageRequest per its struct
tags: refreshNow, link, border, ditherType, ditherKernel are omitempty
(border is a Go int, omitted at 0); deviceId and image carry no
omitempty and are always emitted; ImageBytes and ImagePath are tagged
"-" and never serialized. -/
def marshalImageRequest (r : ImageRequest) : List (String × Json) :=
  (match r.RefreshNow with
    | some b => [("refreshNow", Json.bool b)]
    | none => []) ++
  [("deviceId", Json.str r.DeviceID)] ++
  [("image", Json.str r.Image)] ++
  (if r.Link = "" then [] else [("link", Json.str r.Link)]) ++
  (if r.Border = 0 then [] else [("border", Json.num r.Border)]) ++
  (if r.DitherType = "" then [] else [("ditherType", Json.str r.DitherType)]) ++
  (if r.DitherKernel = "" then [] else [("ditherKernel", Json.str r.DitherKernel)])

/-- Models the mutex-protected section of fixedIntervalLimiter.Wait of
ratelimit.go as a state transition: given the stored next-eligible
instant (none models the zero time.Time) and the current time, it
returns the advanced state and the caller's scheduled release instant. -/
def waitStep (minInterval : Int) (next : Option Int) (now : Int) :
    Option Int × Int :=
  let start :=
    match next with
    | some nxt => if now < nxt then nxt else now
    | none => now
  (some (start + minInterval), start)

/-- Scheduled release instants of a sequence of Wait calls (serialized by
the limiter's mutex), each given by its mutex-acquisition time. -/
def releases (minInterval : Int) : Option Int → List Int → List Int
  | _, [] => []
  | st, now :: rest =>
    (waitStep minInterval st now).2 ::
      releases minInterval (waitStep minInterval st now).1 rest

/-- Models fixedIntervalLimiter.Wait of ratelimit.go in full: the state
transition, then the sleep/cancellation race. cancelAt is the instant
the caller's context fires (none models a context that never fires).
The components are the new stored state, the scheduled release instant,
and whether the call returned the context's error: a call with no wait
returns nil without consulting the context; a waiting call returns the
context's error exactly when the cancellation fires strictly before the
scheduled release. -/
def Wait (minInterval : Int) (next : Option Int) (now : Int)
    (cancelAt : Option Int) : Option Int × Int × Bool :=
  let st2 := (waitStep minInterval next now).1
  let start := (waitStep minInterval next now).2
  if start - now ≤ 0 then (st2, start, false)
  else
    match cancelAt with
    | some c => if c < start then (st2, start, true) else (st2, start, false)
    | none => (st2, start, false)

theorem resolveDeviceID_explicit (dd ex : String) (h : goTrim ex ≠ "") :
    resolveDeviceID dd ex = Except.ok (goTrim ex) := by
  simp [resolveDeviceID, h]

theorem resolveDeviceID_default (dd ex : String) (h1 : goTrim ex = "")
    (h2 : goTrim dd ≠ "") : resolveDeviceID dd ex = Except.ok (goTrim dd) := by
  simp [resolveDeviceID, h1, h2]

theorem resolveDeviceID_missing (dd ex : String) (h1 : goTrim ex = "")
    (h2 : goTrim dd = "") : resolveDeviceID dd ex = Except.error ErrDeviceIDMissing := by
  simp [resolveDeviceID, h1, h2]

theorem textValidate_resolved (r : TextRequest) (s : String) (h : goTrim s ≠ "") :
    TextRequest.validate { r with DeviceID := goTrim s } = none := by
  simp [TextRequest.validate, goTrim_idem, h]

/-- C1: for every dispatch (SendText or SendImage), the effective device
id is the operation's explicit DeviceID when it is non-blank after
trimming, otherwise the client's default device id; when both are blank
after trimming the call returns ErrDeviceIDMissing, and it does so for
every choice of the abstracted doJSON call, hence before any
rate-limiter wait or network activity. -/
theorem c1_effective_device_id :
    ∀ (dd : String) (netT : TextRequest → Except GoError APIResponse)
      (fs : String → Except String (List Nat))
      (netI : ImageRequest → Except GoError APIResponse)
      (t : TextRequest) (i : ImageRequest),
    (goTrim t.DeviceID ≠ "" →
      SendText dd netT t = netT { t with DeviceID := goTrim t.DeviceID }) ∧
    (goTrim t.DeviceID = "" → goTrim dd ≠ "" →
      SendText dd netT t = netT { t with DeviceID := goTrim dd }) ∧
    (goTrim t.DeviceID = "" → goTrim dd = "" →
      SendText dd netT t = Except.error ErrDeviceIDMissing) ∧
    (goTrim i.DeviceID ≠ "" →
      SendImage dd fs netI i =
        SendImageResolved fs netI { i with DeviceID := goTrim i.DeviceID }) ∧
    (goTrim i.DeviceID = "" → goTrim dd ≠ "" →
      SendImage dd fs netI i =
        SendImageResolved fs netI { i with DeviceID := goTrim dd }) ∧
    (goTrim i.DeviceID = "" → goTrim dd = "" →
      SendImage dd fs netI i = Except.error ErrDeviceIDMissing) := by
  intro dd netT fs netI t i
  refine ⟨?_, ?_, ?_, ?_, ?_, ?_⟩
  · intro h
    rw [SendText, resolveDeviceID_explicit dd t.DeviceID h]
    simp [textValidate_resolved t t.DeviceID h]
  · intro h1 h2
    rw [SendText, resolveDeviceID_default dd t.DeviceID h1 h2]
    simp [textValidate_resolved t dd h2]
  · intro h1 h2
    rw [SendText, resolveDeviceID_missing dd t.DeviceID h1 h2]
  · intro h
    rw [SendImage, resolveDeviceID_explicit dd i.DeviceID h]
  · intro h1 h2
    rw [SendImage, resolveDeviceID_default dd i.DeviceID h1 h2]
  · intro h1 h2
    rw [SendImage, resolveDeviceID_missing dd i.DeviceID h1 h2]

/-- Witness for C1: a blank explicit id with a blank client default
fails with ErrDeviceIDMissing; a non-blank explicit id is trimmed and
dispatched. -/
theorem c1_effective_device_id_witness :
    SendText "" (fun _ => Except.ok ⟨0, "", none, 200, ""⟩)
        ⟨none, " ", "", "", "", "", ""⟩ = Except.error ErrDeviceIDMissing ∧
    SendText "" (fun p => Except.ok ⟨0, p.DeviceID, none, 200, ""⟩)
        ⟨none, " d1 ", "t", "m", "", "", ""⟩ = Except.ok ⟨0, "d1", none, 200, ""⟩ := by
  constructor
  · exact (c1_effective_device_id "" (fun _ => Except.ok ⟨0, "", none, 200, ""⟩)
      (fun _ => Except.error "") (fun _ => Except.error ErrDeviceIDMissing)
      ⟨none, " ", "", "", "", "", ""⟩ ⟨none, "", "", [], "", "", 0, "", ""⟩).2.2.1
      (by decide) (by decide)
  · exact ((c1_effective_device_id "" (fun p => Except.ok ⟨0, p.DeviceID, none, 200, ""⟩)
      (fun _ => Except.error "") (fun _ => Except.error ErrDeviceIDMissing)
      ⟨none, " d1 ", "t", "m", "", "", ""⟩ ⟨none, "", "", [], "", "", 0, "", ""⟩).1
      (by decide)).trans (by rfl)

/-- C8: IsRateLimitError holds exactly on APIError values with HTTP
status 429, IsAuthError exactly on APIError values with status 401 or
403; neither holds for an APIError with any other status, and both are
false on every error value that is not an APIError. -/
theorem c8_error_classification :
    ∀ err : GoError,
    (IsRateLimitError err = true ↔ ∃ e, err = GoError.apiError e ∧ e.StatusCode = 429) ∧
    (IsAuthError err = true ↔
      ∃ e, err = GoError.apiError e ∧ (e.StatusCode = 401 ∨ e.StatusCode = 403)) ∧
    (∀ e, err = GoError.apiError e → e.StatusCode ≠ 429 →
      IsRateLimitError err = false) ∧
    (∀ e, err = GoError.apiError e → e.StatusCode ≠ 401 → e.StatusCode ≠ 403 →
      IsAuthError err = false) ∧
    ((∀ e, err ≠ GoError.apiError e) →
      IsRateLimitError err = false ∧ IsAuthError err = false) := by
  intro err
  cases err with
  | apiError e =>
    refine ⟨?_, ?_, ?_, ?_, ?_⟩
    · simp [IsRateLimitError]
    · simp [IsAuthError]
    · intro e2 he h429
      cases he
      simp [IsRateLimitError, h429]
    · intro e2 he h401 h403
      cases he
      simp [IsAuthError, h401, h403]
    · intro h
      exact absurd rfl (h e)
  | sentinel m =>
    refine ⟨?_, ?_, ?_, ?_, ?_⟩ <;>
      simp [IsRateLimitError, IsAuthError]
  | wrapped m =>
    refine ⟨?_, ?_, ?_, ?_, ?_⟩ <;>
      simp [IsRateLimitError, IsAuthError]
  | ctxCanceled =>
    refine ⟨?_, ?_, ?_, ?_, ?_⟩ <;>
      simp [IsRateLimitError, IsAuthError]

/-- Witness for C8 at a concrete 429 APIError and a concrete sentinel. -/
theorem c8_error_classification_witness :
    IsRateLimitError (GoError.apiError ⟨429, "", "busy", "busy"⟩) = true ∧
    IsAuthError (GoError.apiError ⟨403, "", "", ""⟩) = true ∧
    IsRateLimitError ErrDeviceIDMissing = false ∧
    IsAuthError ErrDeviceIDMissing = false := by
  refine ⟨?_, ?_, ?_, ?_⟩
  · exact (c8_error_classification (GoError.apiError ⟨429, "", "busy", "busy"⟩)).1.mpr
      ⟨⟨429, "", "busy", "busy"⟩, rfl, rfl⟩
  · exact (c8_error_classification (GoError.apiError ⟨403, "", "", ""⟩)).2.1.mpr
      ⟨⟨403, "", "", ""⟩, rfl, Or.inr rfl⟩
  · exact ((c8_error_classification ErrDeviceIDMissing).2.2.2.2 (by intro e h; cases h)).1
  · exact ((c8_error_classification ErrDeviceIDMissing).2.2.2.2 (by intro e h; cases h)).2

theorem releases_lower_bound (minInterval : Int) (hI : 0 ≤ minInterval) :
    ∀ (nows : List Int) (nxt : Int),
      ∀ r ∈ releases minInterval (some nxt) nows, nxt ≤ r := by
  intro nows
  induction nows with
  | nil =>
    intro nxt r hr
    simp [releases] at hr
  | cons now rest ih =>
    intro nxt r hr
    simp only [releases, waitStep, List.mem_cons] at hr
    by_cases hc : now < nxt
    · simp only [if_pos hc] at hr
      rcases hr with h | h
      · omega
      · have := ih (nxt + minInterval) r h
        omega
    · simp only [if_neg hc] at hr
      rcases hr with h | h
      · omega
      · have := ih (now + minInterval) r h
        omega

theorem releases_pairwise (minInterval : Int) (hI : 0 ≤ minInterval)
    (st : Option Int) (nows : List Int) :
    (releases minInterval st nows).Pairwise (fun a b => a + minInterval ≤ b) := by
  induction nows generalizing st with
  | nil => simp [releases]
  | cons now rest ih =>
    simp only [releases]
    have hstep : (waitStep minInterval st now).1 =
        some ((waitStep minInterval st now).2 + minInterval) := by
      cases st with
      | none => simp [waitStep]
      | some nxt => by_cases hc : now < nxt <;> simp [waitStep, hc]
    refine List.Pairwise.cons ?_ (ih _)
    intro b hb
    rw [hstep] at hb
    exact releases_lower_bound minInterval hI rest _ b hb

/-- C4: each Wait on the fixed-interval limiter takes the later of the
stored next-eligible instant and the current time as its release
instant and advances the stored instant to that release plus the
interval; consequently, over any serialized sequence of Wait calls, any
two scheduled release instants are at least the interval apart, so
back-to-back callers queue on the shared clock. -/
theorem c4_limiter_min_spacing :
    ∀ (minInterval : Int), 0 ≤ minInterval →
    (∀ (nxt now : Int),
      waitStep minInterval (some nxt) now =
        (some (max now nxt + minInterval), max now nxt)) ∧
    (∀ (nows : List Int),
      (releases minInterval none nows).Pairwise
        (fun a b => a + minInterval ≤ b)) := by
  intro minInterval hI
  constructor
  · intro nxt now
    have hmax : (if now < nxt then nxt else now) = max now nxt := by
      by_cases hc : now < nxt <;> simp [hc] <;> omega
    simp only [waitStep, hmax]
  · intro nows
    exact releases_pairwise minInterval hI none nows

/-- Witness for C4: five queued callers, two of them arriving mid-queue,
are released ten apart pairwise. -/
theorem c4_limiter_min_spacing_witness :
    (releases 10 none [0, 0, 0, 25, 26]).Pairwise (fun a b => a + 10 ≤ b) :=
  (c4_limiter_min_spacing 10 (by decide)).2 [0, 0, 0, 25, 26]

/-- C5 counterexample: a Wait call at instant 10 on a fresh limiter
whose context fired already at instant 5 (before the scheduled release,
which is 10) returns nil, not the context's error, because a call with
no wait never consults the cancellation signal. -/
theorem c5_cancellation_counterexample :
    (Wait 10 none 10 (some 5)).2.1 = 10 ∧ (5 : Int) < 10 ∧
    (Wait 10 none 10 (some 5)).2.2 = false := by decide

/-- C5 amended: a Wait call whose cancellation fires before its
scheduled release time returns the context's error provided the
scheduled release lies strictly after the call's arrival (a positive
wait); a call whose slot is immediately available returns success
without consulting the cancellation signal; and in every case the
stored schedule state advances exactly as for an uncancelled call, so
other waiters are unaffected. -/
theorem c5_cancellation :
    ∀ (minInterval : Int) (st : Option Int) (now c : Int),
    ((Wait minInterval st now (some c)).1 = (Wait minInterval st now none).1 ∧
     (Wait minInterval st now (some c)).2.1 = (waitStep minInterval st now).2) ∧
    (now < (waitStep minInterval st now).2 →
      c < (waitStep minInterval st now).2 →
      (Wait minInterval st now (some c)).2.2 = true) := by
  intro minInterval st now c
  constructor
  · constructor
    · simp only [Wait]
      by_cases h : (waitStep minInterval st now).2 - now ≤ 0
      · simp [h]
      · by_cases h2 : c < (waitStep minInterval st now).2 <;> simp [h, h2]
    · simp only [Wait]
      by_cases h : (waitStep minInterval st now).2 - now ≤ 0
      · simp [h]
      · by_cases h2 : c < (waitStep minInterval st now).2 <;> simp [h, h2]
  · intro h1 h2
    simp only [Wait]
    have h : ¬ ((waitStep minInterval st now).2 - now ≤ 0) := by omega
    simp [h, h2]

/-- Witness for C5 amended: a caller scheduled for instant 20 whose
context fires at instant 7 gets the context error and leaves the same
schedule state as an uncancelled caller. -/
theorem c5_cancellation_witness :
    (Wait 10 (some 20) 5 (some 7)).2.2 = true ∧
    (Wait 10 (some 20) 5 (some 7)).1 = (Wait 10 (some 20) 5 none).1 := by
  constructor
  · exact (c5_cancellation 10 (some 20) 5 7).2 (by decide) (by decide)
  · exact (c5_cancellation 10 (some 20) 5 7).1.1

/-- Predicate: the object carries the given key with a non-empty string
value. -/
def hasNonemptyStrField (obj : List (String × Json)) (key : String) : Prop :=
  ∃ m, lookupField obj key = some (Json.str m) ∧ m ≠ ""

theorem msgFromErrField_pos (obj : List (String × Json)) (fb m : String)
    (h : lookupField obj "error" = some (Json.str m)) (hm : m ≠ "") :
    msgFromErrField obj fb = m := by
  simp [msgFromErrField, h, hm]

theorem msgFromErrField_neg (obj : List (String × Json)) (fb : String)
    (h : ¬ hasNonemptyStrField obj "error") : msgFromErrField obj fb = fb := by
  unfold msgFromErrField
  cases hl : lookupField obj "error" with
  | none => rfl
  | some v =>
    cases v with
    | str m =>
      have hm : m = "" := by
        by_contra hm
        exact h ⟨m, hl, hm⟩
      simp [hm]
    | null => rfl
    | bool b => rfl
    | num n => rfl
    | arr elems => rfl
    | obj fields => rfl

theorem msgFromObj_pos (obj : List (String × Json)) (fb m : String)
    (h : lookupField obj "message" = some (Json.str m)) (hm : m ≠ "") :
    msgFromObj obj fb = m := by
  simp [msgFromObj, h, hm]

theorem msgFromObj_neg (obj : List (String × Json)) (fb : String)
    (h : ¬ hasNonemptyStrField obj "message") :
    msgFromObj obj fb = msgFromErrField obj fb := by
  unfold msgFromObj
  cases hl : lookupField obj "message" with
  | none => rfl
  | some v =>
    cases v with
    | str m =>
      have hm : m = "" := by
        by_contra hm
        exact h ⟨m, hl, hm⟩
      simp [hm]
    | null => rfl
    | bool b => rfl
    | num n => rfl
    | arr elems => rfl
    | obj fields => rfl

theorem extractErrorFields_StatusCode (ae : APIError) (obj : List (String × Json))
    (fb : String) : (extractErrorFields ae obj fb).StatusCode = ae.StatusCode := by
  unfold extractErrorFields
  cases hl : lookupField obj "code" <;> simp [hl]

theorem extractErrorFields_RawBody (ae : APIError) (obj : List (String × Json))
    (fb : String) : (extractErrorFields ae obj fb).RawBody = ae.RawBody := by
  unfold extractErrorFields
  cases hl : lookupField obj "code" <;> simp [hl]

theorem extractErrorFields_Message (ae : APIError) (obj : List (String × Json))
    (fb : String) : (extractErrorFields ae obj fb).Message = msgFromObj obj fb := by
  unfold extractErrorFields
  cases hl : lookupField obj "code" <;> simp [hl]

theorem extractErrorFields_Code (ae : APIError) (obj : List (String × Json))
    (fb : String) :
    (extractErrorFields ae obj fb).Code =
      match lookupField obj "code" with
      | some v => formatCode v
      | none => ae.Code := by
  unfold extractErrorFields
  cases hl : lookupField obj "code" <;> simp [hl]

/-- C2: buildAPIError trims the body; when the trimmed text looks like a
JSON object and the parser yields a mapping, the message is the
non-empty string "message" field, else the non-empty string "error"
field, else the trimmed text, and a "code" field is coerced to a string
(numbers rendered base-10, strings trimmed); on parse failure or
non-JSON-looking text the message is the trimmed text verbatim; and the
original status code and raw body bytes are always retained. -/
theorem c2_buildAPIError_spec :
    ∀ (tryParseJSON : String → Option (List (String × Json)))
      (status : Nat) (body : String),
    (buildAPIError tryParseJSON status body).StatusCode = status ∧
    (buildAPIError tryParseJSON status body).RawBody = body ∧
    (isJSONObject (goTrim body) = false →
      (buildAPIError tryParseJSON status body).Message = goTrim body ∧
      (buildAPIError tryParseJSON status body).Code = "") ∧
    (tryParseJSON body = none →
      (buildAPIError tryParseJSON status body).Message = goTrim body ∧
      (buildAPIError tryParseJSON status body).Code = "") ∧
    (∀ obj, isJSONObject (goTrim body) = true → tryParseJSON body = some obj →
      (∀ m, lookupField obj "message" = some (Json.str m) → m ≠ "" →
        (buildAPIError tryParseJSON status body).Message = m) ∧
      (¬ hasNonemptyStrField obj "message" →
        ∀ m, lookupField obj "error" = some (Json.str m) → m ≠ "" →
        (buildAPIError tryParseJSON status body).Message = m) ∧
      (¬ hasNonemptyStrField obj "message" → ¬ hasNonemptyStrField obj "error" →
        (buildAPIError tryParseJSON status body).Message = goTrim body) ∧
      (∀ n, lookupField obj "code" = some (Json.num n) →
        (buildAPIError tryParseJSON status body).Code = toString n) ∧
      (∀ t, lookupField obj "code" = some (Json.str t) →
        (buildAPIError tryParseJSON status body).Code = goTrim t) ∧
      (lookupField obj "code" = none →
        (buildAPIError tryParseJSON status body).Code = "")) := by
  intro tryParseJSON status body
  by_cases hJ : isJSONObject (goTrim body) = true
  · cases hp : tryParseJSON body with
    | none =>
      refine ⟨?_, ?_, ?_, ?_, ?_⟩
      · simp [buildAPIError, hJ, hp]
      · simp [buildAPIError, hJ, hp]
      · intro hF
        rw [hJ] at hF
        cases hF
      · intro _
        constructor <;> simp [buildAPIError, hJ, hp]
      · intro obj _ hp2
        simp at hp2
    | some obj =>
      have hb : buildAPIError tryParseJSON status body =
          extractErrorFields
            { StatusCode := status, Code := "", Message := goTrim body, RawBody := body }
            obj (goTrim body) := by
        simp [buildAPIError, hJ, hp]
      refine ⟨?_, ?_, ?_, ?_, ?_⟩
      · rw [hb, extractErrorFields_StatusCode]
      · rw [hb, extractErrorFields_RawBody]
      · intro hF
        rw [hJ] at hF
        cases hF
      · intro hn
        simp at hn
      · intro obj2 _ hp2
        cases hp2
        refine ⟨?_, ?_, ?_, ?_, ?_, ?_⟩
        · intro m hm hm2
          rw [hb, extractErrorFields_Message]
          exact msgFromObj_pos obj _ m hm hm2
        · intro hno m hm hm2
          rw [hb, extractErrorFields_Message, msgFromObj_neg obj _ hno]
          exact msgFromErrField_pos obj _ m hm hm2
        · intro hno hne
          rw [hb, extractErrorFields_Message, msgFromObj_neg obj _ hno]
          exact msgFromErrField_neg obj _ hne
        · intro n hn
          rw [hb, extractErrorFields_Code, hn]
          rfl
        · intro t ht
          rw [hb, extractErrorFields_Code, ht]
          rfl
        · intro hn
          rw [hb, extractErrorFields_Code, hn]
  · have hJ2 : isJSONObject (goTrim body) = false := by
      cases h : isJSONObject (goTrim body)
      · rfl
      · exact absurd h hJ
    refine ⟨?_, ?_, ?_, ?_, ?_⟩
    · simp [buildAPIError, hJ2]
    · simp [buildAPIError, hJ2]
    · intro _
      constructor <;> simp [buildAPIError, hJ2]
    · intro _
      constructor <;> simp [buildAPIError, hJ2]
    · intro obj hT _
      rw [hJ2] at hT
      cases hT

/-- Witness for C2: a parsed JSON error body with numeric code, and a
plain-text body. -/
theorem c2_buildAPIError_spec_witness :
    (buildAPIError
      (fun _ => some [("error", Json.str "too fast"), ("code", Json.num 429)])
      429 " \x7b\"error\":\"too fast\",\"code\":429\x7d ").Message = "too fast" ∧
    (buildAPIError
      (fun _ => some [("error", Json.str "too fast"), ("code", Json.num 429)])
      429 " \x7b\"error\":\"too fast\",\"code\":429\x7d ").Code = "429" ∧
    (buildAPIError (fun _ => none) 500 " server blew up ").Message = "server blew up" := by
  refine ⟨?_, ?_, ?_⟩
  · exact ((c2_buildAPIError_spec
      (fun _ => some [("error", Json.str "too fast"), ("code", Json.num 429)])
      429 " \x7b\"error\":\"too fast\",\"code\":429\x7d ").2.2.2.2
      [("error", Json.str "too fast"), ("code", Json.num 429)]
      (by decide) rfl).2.1
      (by intro hx; obtain ⟨m, hm, _⟩ := hx; cases hm)
      "too fast" (by rfl) (by decide)
  · exact (((c2_buildAPIError_spec
      (fun _ => some [("error", Json.str "too fast"), ("code", Json.num 429)])
      429 " \x7b\"error\":\"too fast\",\"code\":429\x7d ").2.2.2.2
      [("error", Json.str "too fast"), ("code", Json.num 429)]
      (by decide) rfl).2.2.2.1 429 (by rfl)).trans (by decide)
  · exact ((c2_buildAPIError_spec (fun _ => none) 500 " server blew up ").2.2.2.1
      rfl).1.trans (by decide)

/-- C3: on a 2xx response, an empty body yields a normalized success
with no message and no result; a non-empty body is JSON-decoded only
when the Content-Type header declares JSON (the outcome is independent
of the decoder otherwise), the decoded envelope is returned when
decoding succeeds, and in every other case the trimmed body becomes the
success message; StatusCode and RawBody are always retained. -/
theorem c3_success_decoding :
    ∀ (decode : String → Option Envelope) (status : Nat) (ct raw : String),
    (doJSON2xx decode status ct raw).StatusCode = status ∧
    (doJSON2xx decode status ct raw).RawBody = raw ∧
    (raw = "" →
      doJSON2xx decode status ct raw =
        { Code := 0, Message := "", Result := none,
          StatusCode := status, RawBody := raw }) ∧
    (raw ≠ "" → goContains (goToLower ct) "application/json" = false →
      ∀ decode2, doJSON2xx decode2 status ct raw =
        { Code := 0, Message := goTrim raw, Result := none,
          StatusCode := status, RawBody := raw }) ∧
    (raw ≠ "" → goContains (goToLower ct) "application/json" = true →
      (∀ env, decode raw = some env →
        doJSON2xx decode status ct raw =
          { Code := env.code, Message := env.message, Result := env.result,
            StatusCode := status, RawBody := raw }) ∧
      (decode raw = none →
        doJSON2xx decode status ct raw =
          { Code := 0, Message := goTrim raw, Result := none,
            StatusCode := status, RawBody := raw })) := by
  intro decode status ct raw
  refine ⟨?_, ?_, ?_, ?_, ?_⟩
  · by_cases hr : raw = ""
    · simp [doJSON2xx, hr]
    · by_cases hct : goContains (goToLower ct) "application/json"
      · cases hd : decode raw <;> simp [doJSON2xx, hr, hct, hd]
      · simp [doJSON2xx, hr, hct]
  · by_cases hr : raw = ""
    · simp [doJSON2xx, hr]
    · by_cases hct : goContains (goToLower ct) "application/json"
      · cases hd : decode raw <;> simp [doJSON2xx, hr, hct, hd]
      · simp [doJSON2xx, hr, hct]
  · intro hr
    simp [doJSON2xx, hr]
  · intro hr hct decode2
    simp [doJSON2xx, hr, hct]
  · intro hr hct
    constructor
    · intro env henv
      simp [doJSON2xx, hr, hct, henv]
    · intro hd
      simp [doJSON2xx, hr, hct, hd]

/-- Witness for C3: a JSON-typed response is decoded; a plain-text
response falls back to the trimmed body as message. -/
theorem c3_success_decoding_witness :
    doJSON2xx (fun _ => some ⟨0, "ok", none⟩) 200 "Application/JSON; charset=utf-8" "x" =
      { Code := 0, Message := "ok", Result := none, StatusCode := 200, RawBody := "x" } ∧
    doJSON2xx (fun _ => none) 200 "text/plain" " ok " =
      { Code := 0, Message := "ok", Result := none, StatusCode := 200, RawBody := " ok " } := by
  constructor
  · exact ((c3_success_decoding (fun _ => some ⟨0, "ok", none⟩) 200
      "Application/JSON; charset=utf-8" "x").2.2.2.2 (by decide) (by decide)).1
      ⟨0, "ok", none⟩ rfl
  · exact (((c3_success_decoding (fun _ => none) 200 "text/plain" " ok ").2.2.2.1
      (by decide) (by decide)) (fun _ => none)).trans (by decide)

theorem b64alphabet_not_space : ∀ x ∈ b64alphabet, goIsSpace x = false := by decide

theorem b64char_not_space (n : Nat) : goIsSpace (b64char n) = false := by
  unfold b64char
  by_cases h : n < b64alphabet.length
  · rw [List.getD_eq_getElem b64alphabet 'A' h]
    exact b64alphabet_not_space _ (List.getElem_mem h)
  · rw [List.getD_eq_default b64alphabet 'A' (Nat.le_of_not_lt h)]
    decide

theorem encodeBase64_data_chars :
    ∀ (bs : List Nat), ∀ c ∈ (encodeBase64 bs).data, goIsSpace c = false := by
  intro bs
  induction bs using encodeBase64.induct with
  | case1 =>
    intro c hc
    simp [encodeBase64] at hc
  | case2 a =>
    show ∀ c ∈ [b64char (a / 4), b64char (a % 4 * 16), '=', '='], goIsSpace c = false
    simp only [List.forall_mem_cons]
    exact ⟨b64char_not_space _, b64char_not_space _, by decide, by decide,
      List.forall_mem_nil _⟩
  | case3 a b =>
    show ∀ c ∈ [b64char (a / 4), b64char (a % 4 * 16 + b / 16), b64char (b % 16 * 4), '='],
      goIsSpace c = false
    simp only [List.forall_mem_cons]
    exact ⟨b64char_not_space _, b64char_not_space _, b64char_not_space _, by decide,
      List.forall_mem_nil _⟩
  | case4 a b cc rest ih =>
    intro c hc
    rw [encodeBase64, String.data_append] at hc
    rcases List.mem_append.mp hc with h | h
    · revert h
      show c ∈ [b64char (a / 4), b64char (a % 4 * 16 + b / 16),
        b64char (b % 16 * 4 + cc / 64), b64char (cc % 64)] → goIsSpace c = false
      intro h
      rcases h with _ | ⟨_, _ | ⟨_, _ | ⟨_, h⟩⟩⟩
      · exact b64char_not_space _
      · exact b64char_not_space _
      · exact b64char_not_space _
      · rcases h with _ | ⟨_, h⟩
        · exact b64char_not_space _
        · cases h
    · exact ih c h

theorem encodeBase64_ne_empty : ∀ (bs : List Nat), bs ≠ [] → encodeBase64 bs ≠ "" := by
  intro bs hbs
  match bs with
  | [a] =>
    intro h
    exact absurd (congrArg String.data h) (by simp [encodeBase64])
  | [a, b] =>
    intro h
    exact absurd (congrArg String.data h) (by simp [encodeBase64])
  | a :: b :: c :: rest =>
    intro h
    have hd := congrArg String.data h
    rw [encodeBase64, String.data_append] at hd
    simp at hd

theorem goTrim_empty : goTrim "" = "" := rfl

theorem goTrim_encodeBase64 (bs : List Nat) :
    goTrim (encodeBase64 bs) = encodeBase64 bs :=
  goTrim_eq_self (encodeBase64_data_chars bs)

theorem goTrim_encodeBase64_ne (bs : List Nat) (h : bs ≠ []) :
    goTrim (encodeBase64 bs) ≠ "" := by
  rw [goTrim_encodeBase64]
  exact encodeBase64_ne_empty bs h

theorem imageValidate_ok (r : ImageRequest) (h1 : goTrim r.DeviceID ≠ "")
    (h2 : goTrim r.Image ≠ "") : ImageRequest.validate r = none := by
  simp [ImageRequest.validate, h1, h2]

theorem imageValidate_no_payload (r : ImageRequest) (h1 : goTrim r.DeviceID ≠ "")
    (h2 : goTrim r.Image = "") :
    ImageRequest.validate r = some ErrImagePayloadMissing := by
  simp [ImageRequest.validate, h1, h2]

theorem marshalImage_image (r : ImageRequest) :
    lookupField (marshalImageRequest r) "image" = some (Json.str r.Image) := by
  obtain ⟨rn, dev, im, ib, ip, lk, bd, dt, dk⟩ := r
  cases rn <;> simp [marshalImageRequest, lookupField_append, lookupField]

/-- C6: the image payload source resolution of SendImage is strict and
ordered (a non-blank pre-encoded Image wins, else non-empty ImageBytes
are base64-encoded, else a non-blank ImagePath is read, with read
failures propagated), and providing the same non-empty bytes as raw
bytes, as a file, or as the pre-set standard base64 encoding yields a
dispatched payload carrying the identical image field on the wire. -/
theorem c6_image_source_precedence :
    ∀ (fs : String → Except String (List Nat))
      (net : ImageRequest → Except GoError APIResponse)
      (p : ImageRequest), goTrim p.DeviceID ≠ "" →
    (goTrim p.Image ≠ "" → SendImageResolved fs net p = net p) ∧
    (goTrim p.Image = "" → p.ImageBytes ≠ [] →
      SendImageResolved fs net p =
        net { p with Image := encodeBase64 p.ImageBytes }) ∧
    (goTrim p.Image = "" → p.ImageBytes = [] → goTrim p.ImagePath ≠ "" →
      (∀ data, fs (goTrim p.ImagePath) = Except.ok data → data ≠ [] →
        SendImageResolved fs net p = net { p with Image := encodeBase64 data }) ∧
      (∀ cause, fs (goTrim p.ImagePath) = Except.error cause →
        SendImageResolved fs net p =
          Except.error (GoError.wrapped ("quote0: read image file: " ++ cause)))) ∧
    (∀ bytes : List Nat, bytes ≠ [] →
      lookupField (marshalImageRequest { p with Image := encodeBase64 bytes }) "image" =
        some (Json.str (encodeBase64 bytes)) ∧
      SendImageResolved fs net
          { p with Image := encodeBase64 bytes, ImageBytes := [], ImagePath := "" } =
        net { p with Image := encodeBase64 bytes, ImageBytes := [], ImagePath := "" } ∧
      SendImageResolved fs net { p with Image := "", ImageBytes := bytes, ImagePath := "" } =
        net { p with Image := encodeBase64 bytes, ImageBytes := bytes, ImagePath := "" } ∧
      (∀ path, goTrim path ≠ "" → fs (goTrim path) = Except.ok bytes →
        SendImageResolved fs net { p with Image := "", ImageBytes := [], ImagePath := path } =
          net { p with Image := encodeBase64 bytes, ImageBytes := [], ImagePath := path })) := by
  intro fs net p hd
  refine ⟨?_, ?_, ?_, ?_⟩
  · intro hImg
    simp [SendImageResolved, hImg, imageValidate_ok p hd hImg]
  · intro hImg hb
    have hbl : 0 < p.ImageBytes.length := List.length_pos.mpr hb
    have hv : ImageRequest.validate { p with Image := encodeBase64 p.ImageBytes } = none :=
      imageValidate_ok _ (by simpa using hd) (by simpa using goTrim_encodeBase64_ne _ hb)
    simp [SendImageResolved, hImg, hbl, hv]
  · intro hImg hb hpath
    have hbl : ¬ 0 < p.ImageBytes.length := by simp [hb]
    constructor
    · intro data hfs hdata
      have hv : ImageRequest.validate { p with Image := encodeBase64 data } = none :=
        imageValidate_ok _ (by simpa using hd) (by simpa using goTrim_encodeBase64_ne _ hdata)
      simp [SendImageResolved, hImg, hbl, hpath, readFile, hfs, hv]
    · intro cause hfs
      simp [SendImageResolved, hImg, hbl, hpath, readFile, hfs]
  · intro bytes hbytes
    have hne : goTrim (encodeBase64 bytes) ≠ "" := goTrim_encodeBase64_ne bytes hbytes
    refine ⟨?_, ?_, ?_, ?_⟩
    · rw [marshalImage_image]
    · have hv : ImageRequest.validate
          { p with Image := encodeBase64 bytes, ImageBytes := [], ImagePath := "" } = none :=
        imageValidate_ok _ (by simpa using hd) (by simpa using hne)
      simp [SendImageResolved, hne, hv]
    · have hv : ImageRequest.validate
          { p with Image := encodeBase64 bytes, ImageBytes := bytes, ImagePath := "" } = none :=
        imageValidate_ok _ (by simpa using hd) (by simpa using hne)
      have hbl : 0 < bytes.length := List.length_pos.mpr hbytes
      simp [SendImageResolved, goTrim_empty, hbl, hv]
    · intro path hpath hfs
      have hv : ImageRequest.validate
          { p with Image := encodeBase64 bytes, ImageBytes := [], ImagePath := path } = none :=
        imageValidate_ok _ (by simpa using hd) (by simpa using hne)
      simp [SendImageResolved, goTrim_empty, hpath, readFile, hfs, hv]

/-- Witness for C6: the bytes 1,2,3 provided raw, by file, and
pre-encoded all dispatch with the identical image field "AQID". -/
theorem c6_image_source_precedence_witness :
    SendImageResolved (fun _ => Except.ok [1, 2, 3])
        (fun q => Except.ok ⟨0, q.Image, none, 200, ""⟩)
        ⟨none, "dev", "", [1, 2, 3], "", "", 0, "", ""⟩ =
      Except.ok ⟨0, "AQID", none, 200, ""⟩ ∧
    SendImageResolved (fun _ => Except.ok [1, 2, 3])
        (fun q => Except.ok ⟨0, q.Image, none, 200, ""⟩)
        ⟨none, "dev", "", [], "img.png", "", 0, "", ""⟩ =
      Except.ok ⟨0, "AQID", none, 200, ""⟩ := by
  constructor
  · exact (((c6_image_source_precedence (fun _ => Except.ok [1, 2, 3])
      (fun q => Except.ok ⟨0, q.Image, none, 200, ""⟩)
      ⟨none, "dev", "", [1, 2, 3], "", "", 0, "", ""⟩ (by decide)).2.1
      (by decide) (by decide))).trans (by rfl)
  · exact ((((c6_image_source_precedence (fun _ => Except.ok [1, 2, 3])
      (fun q => Except.ok ⟨0, q.Image, none, 200, ""⟩)
      ⟨none, "dev", "", [], "img.png", "", 0, "", ""⟩ (by decide)).2.2.1
      (by decide) (by decide) (by decide)).1 [1, 2, 3] rfl (by decide))).trans (by rfl)

/-- C7: an image operation with no pre-encoded Image, no raw bytes and
no path (all blank after trimming) whose device id resolves fails with
ErrImagePayloadMissing, for every choice of the abstracted file system
and doJSON call, hence after device-id resolution and without any
network activity. -/
theorem c7_image_payload_missing :
    ∀ (dd : String) (fs : String → Except String (List Nat))
      (net : ImageRequest → Except GoError APIResponse) (p : ImageRequest),
    goTrim p.Image = "" → p.ImageBytes = [] → goTrim p.ImagePath = "" →
    (goTrim p.DeviceID ≠ "" ∨ goTrim dd ≠ "") →
    SendImage dd fs net p = Except.error ErrImagePayloadMissing := by
  intro dd fs net p hImg hb hpath hD
  have hbl : ¬ 0 < p.ImageBytes.length := by simp [hb]
  by_cases hex : goTrim p.DeviceID = ""
  · have hdd : goTrim dd ≠ "" := by
      rcases hD with h | h
      · exact absurd hex h
      · exact h
    rw [SendImage, resolveDeviceID_default dd p.DeviceID hex hdd]
    have hv : ImageRequest.validate { p with DeviceID := goTrim dd } =
        some ErrImagePayloadMissing :=
      imageValidate_no_payload _ (by simpa [goTrim_idem] using hdd) (by simpa using hImg)
    simp [SendImageResolved, hImg, hbl, hpath, hv]
  · rw [SendImage, resolveDeviceID_explicit dd p.DeviceID hex]
    have hv : ImageRequest.validate { p with DeviceID := goTrim p.DeviceID } =
        some ErrImagePayloadMissing :=
      imageValidate_no_payload _ (by simpa [goTrim_idem] using hex) (by simpa using hImg)
    simp [SendImageResolved, hImg, hbl, hpath, hv]

/-- Witness for C7: an empty image operation with a resolvable device id
fails with ErrImagePayloadMissing. -/
theorem c7_image_payload_missing_witness :
    SendImage "dev" (fun _ => Except.ok [1])
        (fun _ => Except.ok ⟨0, "", none, 200, ""⟩)
        ⟨none, "", " ", [], " ", "", 0, "", ""⟩ =
      Except.error ErrImagePayloadMissing :=
  c7_image_payload_missing "dev" (fun _ => Except.ok [1])
    (fun _ => Except.ok ⟨0, "", none, 200, ""⟩)
    ⟨none, "", " ", [], " ", "", 0, "", ""⟩
    (by decide) (by decide) (by decide) (Or.inr (by decide))

theorem lookupField_rnBlock (rn : Option Bool) (rest : List (String × Json))
    (key : String) (h : key ≠ "refreshNow") :
    lookupField ((match rn with
      | some b => [("refreshNow", Json.bool b)]
      | none => []) ++ rest) key = lookupField rest key := by
  cases rn <;> simp [lookupField_append, lookupField, Ne.symm h]

theorem lookupField_optBlock (cond : Prop) [Decidable cond] (k2 : String) (v : Json)
    (key : String) (h : k2 ≠ key) :
    lookupField (if cond then [] else [(k2, v)]) key = none := by
  by_cases hc : cond <;> simp [hc, lookupField, h]

/-- C9: unset optional fields (empty strings, a nil RefreshNow, a
zero-valued Border, empty dither enums) are entirely absent from the
serialized body; deviceId, and image for image requests, are always
present; and border, when present for BorderBlack, serializes as the
integer 1 (BorderWhite, the integer 0, is always omitted). -/
theorem c9_omitempty_serialization :
    ∀ (t : TextRequest) (r : ImageRequest),
    lookupField (marshalTextRequest t) "deviceId" = some (Json.str t.DeviceID) ∧
    (t.RefreshNow = none → lookupField (marshalTextRequest t) "refreshNow" = none) ∧
    (∀ b, t.RefreshNow = some b →
      lookupField (marshalTextRequest t) "refreshNow" = some (Json.bool b)) ∧
    (t.Title = "" → lookupField (marshalTextRequest t) "title" = none) ∧
    (t.Title ≠ "" → lookupField (marshalTextRequest t) "title" = some (Json.str t.Title)) ∧
    (t.Message = "" → lookupField (marshalTextRequest t) "message" = none) ∧
    (t.Signature = "" → lookupField (marshalTextRequest t) "signature" = none) ∧
    (t.Icon = "" → lookupField (marshalTextRequest t) "icon" = none) ∧
    (t.Link = "" → lookupField (marshalTextRequest t) "link" = none) ∧
    lookupField (marshalImageRequest r) "deviceId" = some (Json.str r.DeviceID) ∧
    lookupField (marshalImageRequest r) "image" = some (Json.str r.Image) ∧
    (r.RefreshNow = none → lookupField (marshalImageRequest r) "refreshNow" = none) ∧
    (r.Link = "" → lookupField (marshalImageRequest r) "link" = none) ∧
    (r.Border = BorderWhite → lookupField (marshalImageRequest r) "border" = none) ∧
    (r.Border = BorderBlack →
      lookupField (marshalImageRequest r) "border" = some (Json.num 1)) ∧
    (r.DitherType = "" → lookupField (marshalImageRequest r) "ditherType" = none) ∧
    (r.DitherKernel = "" → lookupField (marshalImageRequest r) "ditherKernel" = none) := by
  intro t r
  obtain ⟨rn, dev, ti, ms, sg, ic, lk⟩ := t
  obtain ⟨rn2, dev2, im, ib, ip, lk2, bd, dt, dk⟩ := r
  refine ⟨?_, ?_, ?_, ?_, ?_, ?_, ?_, ?_, ?_, ?_, ?_, ?_, ?_, ?_, ?_, ?_, ?_⟩
  · cases rn <;> simp [marshalTextRequest, lookupField_append, lookupField, lookupField_optBlock]
  · intro h
    subst h
    simp [marshalTextRequest, lookupField_append, lookupField, lookupField_optBlock]
  · intro b h
    subst h
    simp [marshalTextRequest, lookupField_append, lookupField, lookupField_optBlock]
  · intro h
    subst h
    cases rn <;> simp [marshalTextRequest, lookupField_append, lookupField, lookupField_optBlock]
  · intro h
    cases rn <;> simp [marshalTextRequest, lookupField_append, lookupField, lookupField_optBlock, h]
  · intro h
    subst h
    cases rn <;> simp [marshalTextRequest, lookupField_append, lookupField, lookupField_optBlock]
  · intro h
    subst h
    cases rn <;> simp [marshalTextRequest, lookupField_append, lookupField, lookupField_optBlock]
  · intro h
    subst h
    cases rn <;> simp [marshalTextRequest, lookupField_append, lookupField, lookupField_optBlock]
  · intro h
    subst h
    cases rn <;> simp [marshalTextRequest, lookupField_append, lookupField, lookupField_optBlock]
  · cases rn2 <;> simp [marshalImageRequest, lookupField_append, lookupField, lookupField_optBlock]
  · cases rn2 <;> simp [marshalImageRequest, lookupField_append, lookupField, lookupField_optBlock]
  · intro h
    subst h
    simp [marshalImageRequest, lookupField_append, lookupField, lookupField_optBlock]
  · intro h
    subst h
    cases rn2 <;> simp [marshalImageRequest, lookupField_append, lookupField, lookupField_optBlock]
  · intro h
    rw [BorderWhite] at h
    subst h
    cases rn2 <;> simp [marshalImageRequest, lookupField_append, lookupField, lookupField_optBlock]
  · intro h
    rw [BorderBlack] at h
    subst h
    cases rn2 <;> simp [marshalImageRequest, lookupField_append, lookupField, lookupField_optBlock]
  · intro h
    subst h
    cases rn2 <;> simp [marshalImageRequest, lookupField_append, lookupField, lookupField_optBlock]
  · intro h
    subst h
    cases rn2 <;> simp [marshalImageRequest, lookupField_append, lookupField, lookupField_optBlock]

/-- Witness for C9: a request with all optional fields unset serializes
with only deviceId (and image), and a black border serializes as 1. -/
theorem c9_omitempty_serialization_witness :
    lookupField (marshalTextRequest ⟨none, "dev", "", "", "", "", ""⟩) "title" = none ∧
    lookupField (marshalTextRequest ⟨none, "dev", "", "", "", "", ""⟩) "deviceId" =
      some (Json.str "dev") ∧
    lookupField (marshalImageRequest ⟨none, "dev", "abc", [], "", "", 1, "", ""⟩) "border" =
      some (Json.num 1) ∧
    lookupField (marshalImageRequest ⟨none, "dev", "abc", [], "", "", 0, "", ""⟩) "border" =
      none := by
  refine ⟨?_, ?_, ?_, ?_⟩
  · exact (c9_omitempty_serialization ⟨none, "dev", "", "", "", "", ""⟩
      ⟨none, "dev", "abc", [], "", "", 1, "", ""⟩).2.2.2.1 rfl
  · exact (c9_omitempty_serialization ⟨none, "dev", "", "", "", "", ""⟩
      ⟨none, "dev", "abc", [], "", "", 1, "", ""⟩).1
  · exact (c9_omitempty_serialization ⟨none, "dev", "", "", "", "", ""⟩
      ⟨none, "dev", "abc", [], "", "", 1, "", ""⟩).2.2.2.2.2.2.2.2.2.2.2.2.2.2.1 rfl
  · exact (c9_omitempty_serialization ⟨none, "dev", "", "", "", "", ""⟩
      ⟨none, "dev", "abc", [], "", "", 0, "", ""⟩).2.2.2.2.2.2.2.2.2.2.2.2.2.1 rfl

/-- C10: validation of a text operation requires only that the resolved
device id be non-blank; title, message, signature, icon and link may
all be empty, and such an operation still dispatches. -/
theorem c10_text_validation_permissive :
    ∀ (dd : String) (net : TextRequest → Except GoError APIResponse)
      (r : TextRequest),
    (∀ s, goTrim s ≠ "" → TextRequest.validate { r with DeviceID := goTrim s } = none) ∧
    (goTrim r.DeviceID ≠ "" →
      SendText dd net r = net { r with DeviceID := goTrim r.DeviceID }) ∧
    (goTrim r.DeviceID = "" → goTrim dd ≠ "" →
      SendText dd net r = net { r with DeviceID := goTrim dd }) := by
  intro dd net r
  refine ⟨?_, ?_, ?_⟩
  · intro s hs
    exact textValidate_resolved r s hs
  · intro h
    rw [SendText, resolveDeviceID_explicit dd r.DeviceID h]
    simp [textValidate_resolved r r.DeviceID h]
  · intro h1 h2
    rw [SendText, resolveDeviceID_default dd r.DeviceID h1 h2]
    simp [textValidate_resolved r dd h2]

/-- Witness for C10: an entirely empty text operation with only a device
id validates and dispatches. -/
theorem c10_text_validation_permissive_witness :
    SendText "" (fun q => Except.ok ⟨0, q.Title, none, 200, ""⟩)
        ⟨none, "dev", "", "", "", "", ""⟩ =
      Except.ok ⟨0, "", none, 200, ""⟩ ∧
    TextRequest.validate ⟨none, goTrim "dev", "", "", "", "", ""⟩ = none := by
  constructor
  · exact ((c10_text_validation_permissive "" (fun q => Except.ok ⟨0, q.Title, none, 200, ""⟩)
      ⟨none, "dev", "", "", "", "", ""⟩).2.1 (by decide)).trans (by rfl)
  · exact (c10_text_validation_permissive "" (fun q => Except.ok ⟨0, q.Title, none, 200, ""⟩)
      ⟨none, "dev", "", "", "", "", ""⟩).1 "dev" (by decide)

end Quote0
